import Mathlib

/-!
Shallow embedding of the workflow/graph engine of app/core/graph.py
(classes Graph, WorkflowRun, WorkflowExecutor, ExecutionLog and the
module-level constants), together with theorems settling the
specification claims about that engine.

Modelling conventions:
* Python dicts with string keys are association lists with unique keys,
  insertion order preserved; dict operations (lookup, item assignment,
  update) are modelled key-wise below.
* Wall-clock and uuid fields of the source (timestamp, duration_ms,
  created_at, step_id, run_id, graph_id) are not modelled; completed_at
  is tracked as a Boolean flag recording whether it was assigned.
* A node function call either returns a Python value (a dict, or some
  non-dict value such as None) or raises an error carrying a message.
* Mutating methods of Graph are modelled as functions returning the
  optional raised error message together with the object state after the
  call, which is unchanged when an error is raised.
* The driver loop of WorkflowExecutor.execute is modelled with explicit
  fuel; execute supplies fuel equal to the iteration cap, which makes the
  fuel-exhausted case coincide with the loop exit on iteration = cap.
-/

namespace DQ

/-- A Python dict with string keys, as an association list. -/
abbrev State (V : Type) := List (String × V)

variable {V : Type}

/-- Python dict lookup d[k]: the value bound to key k, if any (the first
binding of k, which in a dict with unique keys is the only one). -/
def dictGet {α : Type} : List (String × α) → String → Option α
  | [], _ => none
  | p :: d, k => if p.1 == k then some p.2 else dictGet d k

/-- Python dict item assignment d[k] = v: replace the binding of k if
present (keeping its position), append the binding otherwise. -/
def dictSet : State V → String → V → State V
  | [], k, v => [(k, v)]
  | p :: d, k, v => if p.1 == k then (p.1, v) :: d else p :: dictSet d k v

/-- Python dict.update(r): assign every binding of r into d, in the order
the bindings appear in r (last writer wins). -/
def dictUpdate (d r : State V) : State V :=
  r.foldl (fun acc p => dictSet acc p.1 p.2) d

/-- The value returned by a node function, as far as the engine inspects
it: either a dict, or any non-dict value (which includes None). -/
inductive PyRet (V : Type) where
  | dict (d : State V)
  | other

/-- Outcome of calling a node function: a returned value, or a raised
error carrying its message. -/
inductive CallResult (V : Type) where
  | ok (r : PyRet V)
  | raiseErr (msg : String)

/-- Status of a workflow execution (class ExecutionStatus). -/
inductive ExecutionStatus where
  | running
  | completed
  | failed
  | paused
  deriving DecidableEq

/-- Log entry for a step execution (class ExecutionLog); status is the
string "success" or "error" exactly as in the source. -/
structure ExecutionLog (V : Type) where
  node_name : String
  status : String
  state_snapshot : State V
  error : Option String := none
  deriving DecidableEq

/-- Definition of a graph node (class NodeDefinition). -/
structure NodeDefinition (V : Type) where
  name : String
  func : State V → CallResult V
  description : String := ""

/-- Definition of a graph edge with optional routing condition
(class EdgeDefinition). -/
structure EdgeDefinition (V : Type) where
  from_node : String
  to_node : String
  condition : Option (State V → Bool) := none
  description : String := ""

/-- A directed graph of nodes connected by edges (class Graph); nodes is
the node map keyed by node name, edges the ordered edge list. -/
structure Graph (V : Type) where
  name : String := "default_graph"
  nodes : List (String × NodeDefinition V) := []
  edges : List (EdgeDefinition V) := []
  entry_point : Option String := none

/-- Graph.add_node: raise if the name is already present, else insert the
node; the first added node becomes the entry point if none is set. -/
def Graph.add_node (g : Graph V) (name : String)
    (func : State V → CallResult V) (description : String) :
    Option String × Graph V :=
  if g.nodes.any (fun p => p.1 == name) then
    (some ("Node " ++ name ++ " already exists"), g)
  else
    let g1 : Graph V :=
      { g with nodes := g.nodes ++
          [(name, { name := name, func := func, description := description })] }
    match g1.entry_point with
    | none => (none, { g1 with entry_point := some name })
    | some _ => (none, g1)

/-- Graph.add_edge: raise if either endpoint is absent, else append the
edge to the ordered edge list. -/
def Graph.add_edge (g : Graph V) (from_node to_node : String)
    (condition : Option (State V → Bool)) (description : String) :
    Option String × Graph V :=
  if (g.nodes.any (fun p => p.1 == from_node)) = false then
    (some ("Source node " ++ from_node ++ " does not exist"), g)
  else if (g.nodes.any (fun p => p.1 == to_node)) = false then
    (some ("Destination node " ++ to_node ++ " does not exist"), g)
  else
    (none, { g with edges := g.edges ++
        [{ from_node := from_node, to_node := to_node,
           condition := condition, description := description }] })

/-- Graph.set_entry_point: raise if the node is absent, else overwrite the
entry point. -/
def Graph.set_entry_point (g : Graph V) (node_name : String) :
    Option String × Graph V :=
  if g.nodes.any (fun p => p.1 == node_name) then
    (none, { g with entry_point := some node_name })
  else
    (some ("Node " ++ node_name ++ " does not exist"), g)

/-- Whether an edge is taken in the given state: no condition means the
edge is always taken, otherwise the condition decides. -/
def edgeTaken (e : EdgeDefinition V) (state : State V) : Bool :=
  match e.condition with
  | none => true
  | some c => c state

/-- Loop body of Graph.get_next_nodes: scan the edge list in order, keep
the target of every edge leaving current_node whose condition is absent or
evaluates true on the state. -/
def getNextNodesGo (current_node : String) (state : State V) :
    List (EdgeDefinition V) → List String
  | [] => []
  | e :: es =>
    if e.from_node == current_node then
      match e.condition with
      | none => e.to_node :: getNextNodesGo current_node state es
      | some c =>
        if c state then e.to_node :: getNextNodesGo current_node state es
        else getNextNodesGo current_node state es
    else getNextNodesGo current_node state es

/-- Graph.get_next_nodes. -/
def Graph.get_next_nodes (g : Graph V) (current_node : String)
    (state : State V) : List String :=
  getNextNodesGo current_node state g.edges

/-- Graph.validate: (is_valid, error_message). -/
def Graph.validate (g : Graph V) : Bool × String :=
  if g.nodes.isEmpty then (false, "Graph has no nodes")
  else
    match g.entry_point with
    | none => (false, "No entry point set")
    | some ep =>
      if g.nodes.any (fun p => p.1 == ep) then (true, "")
      else (false, "Entry point " ++ ep ++ " does not exist")

/-- One execution of a workflow (class WorkflowRun). -/
structure WorkflowRun (V : Type) where
  state : State V
  status : ExecutionStatus := ExecutionStatus.running
  logs : List (ExecutionLog V) := []
  visited_nodes : List String := []
  completed_at : Bool := false
  error : Option String := none
  deriving DecidableEq

/-- WorkflowRun.__init__: the run owns a copy of the initial state, status
running, everything else empty. -/
def initRun (initial_state : State V) : WorkflowRun V :=
  { state := initial_state }

/-- Module constant WorkflowExecutor.MAX_ITERATIONS. -/
def MAX_ITERATIONS : Nat := 1000

/-- The line max_iterations = max_iterations or self.MAX_ITERATIONS:
Python or replaces both an absent argument and a falsy one (0) by the
default cap. -/
def effectiveCap : Option Nat → Nat
  | none => MAX_ITERATIONS
  | some m => if m = 0 then MAX_ITERATIONS else m

/-- Python truthiness of the current_node variable (None and the empty
string are falsy). -/
def pyTruthyName : Option String → Bool
  | none => false
  | some s => !s.isEmpty

/-- Lookup in the node map: self.graph.nodes[current_node]; none models a
KeyError. -/
def findNode (g : Graph V) (node_name : String) : Option (NodeDefinition V) :=
  dictGet g.nodes node_name

/-- State update after a successful node call (graph.py lines 257-259):
the result is merged into the run state only when it is a truthy dict, and
the merge is dict.update, a shallow top-level last-writer-wins update. -/
def mergeResult (s : State V) : PyRet V → State V
  | PyRet.dict d => if d.isEmpty then s else dictUpdate s d
  | PyRet.other => s

/-- Bookkeeping after a successful node call (graph.py lines 253-273):
merge the result, append a success log entry whose snapshot is the
post-merge state, and append the node to visited_nodes. -/
def successStep (run : WorkflowRun V) (cur : String) (result : PyRet V) :
    WorkflowRun V :=
  let newState := mergeResult run.state result
  { run with
    state := newState,
    logs := run.logs ++
      [{ node_name := cur, status := "success",
         state_snapshot := newState, error := none }],
    visited_nodes := run.visited_nodes ++ [cur] }

/-- The state of WorkflowExecutor.execute when its while loop exits: the
run so far, the value of the iteration counter, the value of current_node,
and the message of the exception that escaped the loop body, if any. -/
structure LoopResult (V : Type) where
  run : WorkflowRun V
  iteration : Nat
  current : Option String
  raised : Option String
  deriving DecidableEq

/-- The while loop of WorkflowExecutor.execute (graph.py lines 245-296),
with explicit fuel. Each iteration increments the counter, looks up and
calls the current node, merges and logs on success (appending to
visited_nodes), logs and escapes on a raised node error (not appending to
visited_nodes), and moves to the first element of get_next_nodes, or to
None when there is none. -/
def execLoop (g : Graph V) (maxIter : Nat) :
    Nat → Nat → Option String → WorkflowRun V → LoopResult V
  | 0, iteration, current, run => ⟨run, iteration, current, none⟩
  | fuel + 1, iteration, current, run =>
    match current with
    | none => ⟨run, iteration, none, none⟩
    | some cur =>
      if cur.isEmpty = true ∨ maxIter ≤ iteration then
        ⟨run, iteration, some cur, none⟩
      else
        match findNode g cur with
        | none => ⟨run, iteration + 1, some cur, some ("KeyError: " ++ cur)⟩
        | some node_def =>
          match node_def.func run.state with
          | CallResult.raiseErr msg =>
            ⟨{ run with logs := run.logs ++
                [{ node_name := cur, status := "error",
                   state_snapshot := run.state, error := some msg }] },
             iteration + 1, some cur, some msg⟩
          | CallResult.ok result =>
            let run1 := successStep run cur result
            execLoop g maxIter fuel (iteration + 1)
              ((g.get_next_nodes cur run1.state).head?) run1

/-- Outcome of WorkflowExecutor.execute for the caller: the returned run,
a raised execution error together with the finalized run, or the
InvalidGraph ValueError raised before any run is created. -/
inductive ExecOutcome (V : Type) where
  | ok (run : WorkflowRun V)
  | err (msg : String) (run : WorkflowRun V)
  | invalid (msg : String)
  deriving DecidableEq

/-- The status of the run carried by an outcome, if one was created. -/
def ExecOutcome.statusOf : ExecOutcome V → Option ExecutionStatus
  | ExecOutcome.ok run => some run.status
  | ExecOutcome.err _ run => some run.status
  | ExecOutcome.invalid _ => none

/-- The message of the exception carried by an outcome, if any. -/
def ExecOutcome.errMsg : ExecOutcome V → Option String
  | ExecOutcome.ok _ => none
  | ExecOutcome.err m _ => some m
  | ExecOutcome.invalid m => some m

/-- The message of the iteration-limit RuntimeError (graph.py line 299). -/
def capMessage (cap : Nat) : String :=
  "Workflow exceeded maximum iterations (" ++ toString cap ++ ")"

/-- The outer except branch of execute (graph.py lines 304-309): mark the
run failed, record the error message, set completed_at, re-raise. -/
def finalizeFailed (run : WorkflowRun V) (msg : String) : WorkflowRun V :=
  { run with status := ExecutionStatus.failed, error := some msg,
             completed_at := true }

/-- Executes a workflow graph (class WorkflowExecutor); run is the
current-run reference self.run. -/
structure WorkflowExecutor (V : Type) where
  graph : Graph V
  run : Option (WorkflowRun V) := none

/-- WorkflowExecutor.execute (graph.py lines 216-311): validate the graph
and raise before creating a run when invalid; otherwise drive the loop
from the entry point, then raise the iteration-limit error when the
counter reached the cap, finalize a failed run when an exception escaped
the loop, and otherwise mark the run completed. Returns the outcome for
the caller together with the executor state after the call. -/
def WorkflowExecutor.execute (ex : WorkflowExecutor V) (initial_state : State V)
    (max_iterations : Option Nat) :
    ExecOutcome V × WorkflowExecutor V :=
  let v := ex.graph.validate
  if v.1 = false then
    (ExecOutcome.invalid ("Invalid graph: " ++ v.2), ex)
  else
    let cap := effectiveCap max_iterations
    let r := execLoop ex.graph cap cap 0 ex.graph.entry_point (initRun initial_state)
    match r.raised with
    | some msg =>
      let runF := finalizeFailed r.run msg
      (ExecOutcome.err msg runF, { ex with run := some runF })
    | none =>
      if cap ≤ r.iteration then
        let msg := capMessage cap
        let runF := finalizeFailed r.run msg
        (ExecOutcome.err msg runF, { ex with run := some runF })
      else
        let runC := { r.run with status := ExecutionStatus.completed,
                                 completed_at := true }
        (ExecOutcome.ok runC, { ex with run := some runC })

/-! Concrete graphs used by the claim witnesses and counterexamples. -/

/-- A node function returning the dict update done: 1. -/
def demoNodeFunc : State Int → CallResult Int :=
  fun _ => CallResult.ok (PyRet.dict [("done", 1)])

/-- A one-node graph with no edges: every run terminates naturally after
one step. -/
def demoGraph : Graph Int :=
  { name := "demo",
    nodes := [("a", { name := "a", func := demoNodeFunc })],
    edges := [],
    entry_point := some "a" }

/-- An executor over demoGraph. -/
def demoExecutor : WorkflowExecutor Int := { graph := demoGraph }

/-! Lemmas about the dict operations. -/

theorem dictGet_dictSet_self (d : State V) (k : String) (v : V) :
    dictGet (dictSet d k v) k = some v := by
  induction d with
  | nil => simp [dictSet, dictGet]
  | cons p d ih =>
    by_cases h : p.1 = k
    · simp [dictSet, dictGet, h]
    · simp [dictSet, dictGet, h, ih]

theorem dictGet_dictSet_ne (d : State V) (k k2 : String) (v : V)
    (h : k2 ≠ k) : dictGet (dictSet d k v) k2 = dictGet d k2 := by
  induction d with
  | nil => simp [dictSet, dictGet, Ne.symm h]
  | cons p d ih =>
    by_cases hp : p.1 = k
    · simp [dictSet, dictGet, hp, Ne.symm h]
    · by_cases hq : p.1 = k2
      · simp [dictSet, dictGet, hp, hq, h]
      · simp [dictSet, dictGet, hp, hq, ih]

theorem dictGet_eq_none_of_not_mem (d : State V) (k : String)
    (h : k ∉ d.map Prod.fst) : dictGet d k = none := by
  induction d with
  | nil => rfl
  | cons p d ih =>
    simp only [List.map_cons, List.mem_cons] at h
    push_neg at h
    have hp : p.1 ≠ k := Ne.symm h.1
    simpa [dictGet, hp] using ih h.2

theorem dictGet_dictUpdate (s r : State V) (k : String)
    (h : (r.map Prod.fst).Nodup) :
    dictGet (dictUpdate s r) k =
      match dictGet r k with
      | some v => some v
      | none => dictGet s k := by
  induction r generalizing s with
  | nil => simp [dictUpdate, dictGet]
  | cons p r ih =>
    simp only [List.map_cons, List.nodup_cons] at h
    have hstep : dictUpdate s (p :: r) = dictUpdate (dictSet s p.1 p.2) r := rfl
    rw [hstep, ih (dictSet s p.1 p.2) h.2]
    by_cases hk : p.1 = k
    · have hr : dictGet r k = none := by
        apply dictGet_eq_none_of_not_mem
        rw [hk] at h
        exact h.1
      have hself : dictGet (dictSet s k p.2) k = some p.2 :=
        dictGet_dictSet_self s k p.2
      simp [hr, hself, dictGet, hk]
    · have hg : dictGet (p :: r) k = dictGet r k := by simp [dictGet, hk]
      rw [hg, dictGet_dictSet_ne s p.1 k p.2 (Ne.symm hk)]

/-- C2. For every state and node-result: a dict result is merged into the
run state by a shallow, top-level, last-writer-wins update (each key of
the result overwrites that key of the state, keys absent from the result
are untouched, bound values are replaced wholesale), and a non-dict result
leaves the state unchanged. -/
theorem c2_merge_shallow (s d : State V) (k : String)
    (hnodup : (d.map Prod.fst).Nodup) :
    (dictGet (mergeResult s (PyRet.dict d)) k =
      match dictGet d k with
      | some v => some v
      | none => dictGet s k)
    ∧ (∀ t : State V, mergeResult t PyRet.other = t) := by
  refine ⟨?_, fun t => rfl⟩
  cases d with
  | nil => simp [mergeResult, dictGet]
  | cons p r =>
    have hne : ((p :: r) : State V).isEmpty = false := rfl
    simp only [mergeResult, hne, Bool.false_eq_true, if_false]
    exact dictGet_dictUpdate s (p :: r) k hnodup

/-- Witness for C2 at the state-merge-law instance of the specification:
state a: 0, b: 2 merged with result a: 1 gives exactly a: 1, b: 2. -/
theorem c2_merge_shallow_witness :
    (([("a", (1 : Int))].map Prod.fst).Nodup
    ∧ mergeResult [("a", (0 : Int)), ("b", 2)] (PyRet.dict [("a", 1)])
        = [("a", 1), ("b", 2)])
    ∧ (dictGet (mergeResult [("a", (0 : Int)), ("b", 2)] (PyRet.dict [("a", 1)])) "a" =
        match dictGet [("a", (1 : Int))] "a" with
        | some v => some v
        | none => dictGet [("a", (0 : Int)), ("b", 2)] "a") := by
  refine ⟨⟨by decide, by decide⟩, ?_⟩
  exact (c2_merge_shallow [("a", (0 : Int)), ("b", 2)] [("a", 1)] "a" (by decide)).1

/-! Lemmas about get_next_nodes and about single iterations of the loop. -/

theorem getNextNodesGo_eq_filter (current_node : String) (state : State V)
    (es : List (EdgeDefinition V)) :
    getNextNodesGo current_node state es =
      (es.filter (fun e => e.from_node == current_node && edgeTaken e state)).map
        (fun e => e.to_node) := by
  induction es with
  | nil => rfl
  | cons e es ih =>
    by_cases h : e.from_node = current_node
    · cases hc : e.condition with
      | none => simp [getNextNodesGo, h, hc, edgeTaken, List.filter_cons, ih]
      | some c =>
        by_cases hcs : c state
        · simp [getNextNodesGo, h, hc, edgeTaken, List.filter_cons, hcs, ih]
        · simp [getNextNodesGo, h, hc, edgeTaken, List.filter_cons, hcs, ih]
    · simp [getNextNodesGo, h, List.filter_cons, ih]

theorem execLoop_success_step (g : Graph V) (cap fuel it : Nat) (cur : String)
    (run : WorkflowRun V) (node_def : NodeDefinition V) (result : PyRet V)
    (hcur : cur.isEmpty = false) (hit : it < cap)
    (hfind : findNode g cur = some node_def)
    (hfunc : node_def.func run.state = CallResult.ok result) :
    execLoop g cap (fuel + 1) it (some cur) run =
      execLoop g cap fuel (it + 1)
        ((g.get_next_nodes cur (successStep run cur result).state).head?)
        (successStep run cur result) := by
  have hcond : ¬(cur.isEmpty = true ∨ cap ≤ it) := by
    push_neg
    exact ⟨by simp [hcur], by omega⟩
  simp only [execLoop]
  rw [if_neg hcond, hfind]
  simp only [hfunc]

theorem execLoop_error_step (g : Graph V) (cap fuel it : Nat) (cur : String)
    (run : WorkflowRun V) (node_def : NodeDefinition V) (msg : String)
    (hcur : cur.isEmpty = false) (hit : it < cap)
    (hfind : findNode g cur = some node_def)
    (hfunc : node_def.func run.state = CallResult.raiseErr msg) :
    execLoop g cap (fuel + 1) it (some cur) run =
      ⟨{ run with logs := run.logs ++
          [{ node_name := cur, status := "error",
             state_snapshot := run.state, error := some msg }] },
       it + 1, some cur, some msg⟩ := by
  have hcond : ¬(cur.isEmpty = true ∨ cap ≤ it) := by
    push_neg
    exact ⟨by simp [hcur], by omega⟩
  simp only [execLoop]
  rw [if_neg hcond, hfind]
  simp only [hfunc]

theorem execLoop_zero (g : Graph V) (cap it : Nat) (cur : Option String)
    (run : WorkflowRun V) : execLoop g cap 0 it cur run = ⟨run, it, cur, none⟩ :=
  rfl

theorem execLoop_none_step (g : Graph V) (cap fuel it : Nat)
    (run : WorkflowRun V) :
    execLoop g cap (fuel + 1) it none run = ⟨run, it, none, none⟩ :=
  rfl

theorem execLoop_exit_step (g : Graph V) (cap fuel it : Nat) (cur : String)
    (run : WorkflowRun V) (hcond : cur.isEmpty = true ∨ cap ≤ it) :
    execLoop g cap (fuel + 1) it (some cur) run = ⟨run, it, some cur, none⟩ := by
  simp only [execLoop]
  rw [if_pos hcond]

theorem execLoop_keyerror_step (g : Graph V) (cap fuel it : Nat) (cur : String)
    (run : WorkflowRun V) (hcur : cur.isEmpty = false) (hit : it < cap)
    (hfind : findNode g cur = none) :
    execLoop g cap (fuel + 1) it (some cur) run =
      ⟨run, it + 1, some cur, some ("KeyError: " ++ cur)⟩ := by
  have hcond : ¬(cur.isEmpty = true ∨ cap ≤ it) := by
    push_neg
    exact ⟨by simp [hcur], by omega⟩
  simp only [execLoop]
  rw [if_neg hcond, hfind]

/-- Every iteration of the loop that does not raise appends exactly one
log entry: at loop exit without a raised error, the number of appended log
entries equals the number of completed iterations. -/
theorem execLoop_logs_length (g : Graph V) (cap fuel : Nat) :
    ∀ (it : Nat) (cur : Option String) (run : WorkflowRun V),
      (execLoop g cap fuel it cur run).raised = none →
      (execLoop g cap fuel it cur run).run.logs.length + it
        = run.logs.length + (execLoop g cap fuel it cur run).iteration := by
  induction fuel with
  | zero =>
    intro it cur run _
    rw [execLoop_zero]
  | succ fuel ih =>
    intro it cur run h
    cases cur with
    | none => rw [execLoop_none_step]
    | some cur =>
      by_cases hcond : cur.isEmpty = true ∨ cap ≤ it
      · rw [execLoop_exit_step g cap fuel it cur run hcond]
      · push_neg at hcond
        have hcur : cur.isEmpty = false := by
          cases hc : cur.isEmpty with
          | false => rfl
          | true => exact absurd hc hcond.1
        have hit : it < cap := by omega
        cases hfind : findNode g cur with
        | none =>
          rw [execLoop_keyerror_step g cap fuel it cur run hcur hit hfind] at h
          simp at h
        | some node_def =>
          cases hfunc : node_def.func run.state with
          | raiseErr msg =>
            rw [execLoop_error_step g cap fuel it cur run node_def msg
              hcur hit hfind hfunc] at h
            simp at h
          | ok result =>
            rw [execLoop_success_step g cap fuel it cur run node_def result
              hcur hit hfind hfunc] at h ⊢
            have hrec := ih (it + 1)
              ((g.get_next_nodes cur (successStep run cur result).state).head?)
              (successStep run cur result) h
            have hlen : (successStep run cur result).logs.length
                = run.logs.length + 1 := by
              simp [successStep]
            omega

/-- When the loop is entered with fuel equal to the remaining iteration
budget and exits without a raised error while current_node is still
truthy, the exit reason was the iteration cap: the counter equals the
cap. -/
theorem execLoop_cap_exit (g : Graph V) (cap fuel : Nat) :
    ∀ (it : Nat) (cur : Option String) (run : WorkflowRun V),
      it + fuel = cap →
      (execLoop g cap fuel it cur run).raised = none →
      pyTruthyName (execLoop g cap fuel it cur run).current = true →
      (execLoop g cap fuel it cur run).iteration = cap := by
  induction fuel with
  | zero =>
    intro it cur run hf _ _
    rw [execLoop_zero]
    show it = cap
    omega
  | succ fuel ih =>
    intro it cur run hf hraised htruthy
    cases cur with
    | none =>
      rw [execLoop_none_step] at htruthy
      simp [pyTruthyName] at htruthy
    | some cur =>
      by_cases hcond : cur.isEmpty = true ∨ cap ≤ it
      · rw [execLoop_exit_step g cap fuel it cur run hcond] at htruthy ⊢
        have hcur : cur.isEmpty = false := by
          simpa [pyTruthyName] using htruthy
        rcases hcond with hc | hc
        · rw [hcur] at hc
          exact absurd hc (by simp)
        · omega
      · push_neg at hcond
        have hcur : cur.isEmpty = false := by
          cases hc : cur.isEmpty with
          | false => rfl
          | true => exact absurd hc hcond.1
        have hit : it < cap := by omega
        cases hfind : findNode g cur with
        | none =>
          rw [execLoop_keyerror_step g cap fuel it cur run hcur hit hfind] at hraised
          simp at hraised
        | some node_def =>
          cases hfunc : node_def.func run.state with
          | raiseErr msg =>
            rw [execLoop_error_step g cap fuel it cur run node_def msg
              hcur hit hfind hfunc] at hraised
            simp at hraised
          | ok result =>
            rw [execLoop_success_step g cap fuel it cur run node_def result
              hcur hit hfind hfunc] at hraised htruthy ⊢
            exact ih (it + 1)
              ((g.get_next_nodes cur (successStep run cur result).state).head?)
              (successStep run cur result) (by omega) hraised htruthy

/-- Any error outcome of execute carries a run finalized by the outer
except branch (graph.py lines 304-309): status failed, the error message
recorded on the run, completed_at set; and the executor's current-run
reference holds that same finalized run. -/
theorem execute_err_finalized (ex : WorkflowExecutor V) (s : State V)
    (mi : Option Nat) (msg : String) (runF : WorkflowRun V)
    (exF : WorkflowExecutor V)
    (h : ex.execute s mi = (ExecOutcome.err msg runF, exF)) :
    runF.status = ExecutionStatus.failed ∧ runF.error = some msg
      ∧ runF.completed_at = true ∧ exF.run = some runF := by
  by_cases hv : (ex.graph.validate).1 = false
  · simp [WorkflowExecutor.execute, hv] at h
  · simp only [WorkflowExecutor.execute] at h
    rw [if_neg hv] at h
    cases hr : (execLoop ex.graph (effectiveCap mi) (effectiveCap mi) 0
        ex.graph.entry_point (initRun s)).raised with
    | some m =>
      rw [hr] at h
      injection h with h1 h2
      injection h1 with hm hrun
      subst hm
      subst hrun
      subst h2
      exact ⟨rfl, rfl, rfl, rfl⟩
    | none =>
      rw [hr] at h
      by_cases hcap : effectiveCap mi ≤
          (execLoop ex.graph (effectiveCap mi) (effectiveCap mi) 0
            ex.graph.entry_point (initRun s)).iteration
      · rw [if_pos hcap] at h
        injection h with h1 h2
        injection h1 with hm hrun
        subst hm
        subst hrun
        subst h2
        exact ⟨rfl, rfl, rfl, rfl⟩
      · rw [if_neg hcap] at h
        injection h with h1 h2
        injection h1

/-- A node function that raises with message boom. -/
def raiseNodeFunc : State Int → CallResult Int :=
  fun _ => CallResult.raiseErr "boom"

/-- A one-node graph whose node always raises. -/
def raiseGraph : Graph Int :=
  { name := "raise",
    nodes := [("a", { name := "a", func := raiseNodeFunc })],
    edges := [],
    entry_point := some "a" }

/-- An executor over raiseGraph. -/
def raiseExec : WorkflowExecutor Int := { graph := raiseGraph }

/-- A graph with two unconditioned edges out of its entry node, to observe
first-match selection. -/
def branchGraph : Graph Int :=
  { name := "branch",
    nodes :=
      [("a", { name := "a", func := fun _ => CallResult.ok (PyRet.dict [("v", 1)]) }),
       ("b", { name := "b", func := fun _ => CallResult.ok PyRet.other }),
       ("c", { name := "c", func := fun _ => CallResult.ok PyRet.other })],
    edges := [{ from_node := "a", to_node := "b" },
              { from_node := "a", to_node := "c" }],
    entry_point := some "a" }

/-- C3. get_next_nodes returns exactly the targets of the edges leaving
the current node whose condition is absent or true on the state, in
edge-declaration order (a sublist of the declared target list); and on a
successful step the loop continues at the head of that list (none when it
is empty), executing one node per iteration. -/
theorem c3_get_next_nodes :
    (∀ (V : Type) (g : Graph V) (cur : String) (s : State V),
      g.get_next_nodes cur s =
        (g.edges.filter (fun e => e.from_node == cur && edgeTaken e s)).map
          (fun e => e.to_node))
    ∧ (∀ (V : Type) (g : Graph V) (cur : String) (s : State V),
      (g.get_next_nodes cur s).Sublist (g.edges.map (fun e => e.to_node)))
    ∧ (∀ (V : Type) (g : Graph V) (cap fuel it : Nat) (cur : String)
        (run : WorkflowRun V) (node_def : NodeDefinition V) (result : PyRet V),
      cur.isEmpty = false → it < cap →
      findNode g cur = some node_def →
      node_def.func run.state = CallResult.ok result →
      execLoop g cap (fuel + 1) it (some cur) run =
        execLoop g cap fuel (it + 1)
          ((g.get_next_nodes cur (successStep run cur result).state).head?)
          (successStep run cur result)) := by
  refine ⟨?_, ?_, ?_⟩
  · intro V g cur s
    exact getNextNodesGo_eq_filter cur s g.edges
  · intro V g cur s
    rw [Graph.get_next_nodes, getNextNodesGo_eq_filter]
    exact (List.filter_sublist g.edges).map (fun e => e.to_node)
  · intro V g cap fuel it cur run nd result h1 h2 h3 h4
    exact execLoop_success_step g cap fuel it cur run nd result h1 h2 h3 h4

/-- Witness for C3: on branchGraph both edges out of a match, in
declaration order, and the loop step after executing a continues at the
first match b. -/
theorem c3_get_next_nodes_witness :
    branchGraph.get_next_nodes "a" [("v", (1 : Int))] = ["b", "c"]
    ∧ (branchGraph.get_next_nodes "a" [("v", (1 : Int))]).head? = some "b"
    ∧ (("a" : String).isEmpty = false ∧ (0 : Nat) < 5)
    ∧ execLoop branchGraph 5 4 0 (some "a") (initRun ([] : State Int)) =
        execLoop branchGraph 5 3 1
          ((branchGraph.get_next_nodes "a"
            (successStep (initRun []) "a" (PyRet.dict [("v", 1)])).state).head?)
          (successStep (initRun []) "a" (PyRet.dict [("v", 1)])) := by
  refine ⟨by decide, by decide, ⟨rfl, by decide⟩, ?_⟩
  exact c3_get_next_nodes.2.2 Int branchGraph 5 3 0 "a" (initRun [])
    { name := "a", func := fun _ => CallResult.ok (PyRet.dict [("v", 1)]) }
    (PyRet.dict [("v", 1)]) rfl (by decide) rfl rfl

/-- C4. When a node call raises with message m, the loop appends an error
log entry whose error field is m (without touching visited_nodes) and
escapes immediately, so no further node executes; and every error outcome
of execute carries a run finalized before propagation: status failed,
error m on the run, completed_at set, and the executor's current-run
reference still holding that run for the caller to inspect. -/
theorem c4_node_error_finalization :
    (∀ (V : Type) (g : Graph V) (cap fuel it : Nat) (cur : String)
       (run : WorkflowRun V) (node_def : NodeDefinition V) (msg : String),
      cur.isEmpty = false → it < cap →
      findNode g cur = some node_def →
      node_def.func run.state = CallResult.raiseErr msg →
      execLoop g cap (fuel + 1) it (some cur) run =
        ⟨{ run with logs := run.logs ++
            [{ node_name := cur, status := "error",
               state_snapshot := run.state, error := some msg }] },
         it + 1, some cur, some msg⟩)
    ∧ (∀ (V : Type) (ex : WorkflowExecutor V) (s : State V) (mi : Option Nat)
         (msg : String) (runF : WorkflowRun V) (exF : WorkflowExecutor V),
        ex.execute s mi = (ExecOutcome.err msg runF, exF) →
        runF.status = ExecutionStatus.failed ∧ runF.error = some msg
          ∧ runF.completed_at = true ∧ exF.run = some runF) := by
  constructor
  · intro V g cap fuel it cur run nd msg h1 h2 h3 h4
    exact execLoop_error_step g cap fuel it cur run nd msg h1 h2 h3 h4
  · intro V ex s mi msg runF exF h
    exact execute_err_finalized ex s mi msg runF exF h

/-- Witness for C4 on raiseGraph: the error entry records boom, the node
is not appended to visited_nodes, and the caller observes the finalized
failed run through the executor. -/
theorem c4_node_error_finalization_witness :
    (("a" : String).isEmpty = false ∧ (0 : Nat) < 1000
      ∧ findNode raiseGraph "a" = some { name := "a", func := raiseNodeFunc }
      ∧ raiseNodeFunc (initRun ([] : State Int)).state = CallResult.raiseErr "boom")
    ∧ execLoop raiseGraph 1000 1000 0 (some "a") (initRun ([] : State Int)) =
        ⟨{ initRun ([] : State Int) with logs :=
            [{ node_name := "a", status := "error",
               state_snapshot := [], error := some "boom" }] },
         1, some "a", some "boom"⟩
    ∧ ∃ runF exF,
        raiseExec.execute [] none = (ExecOutcome.err "boom" runF, exF)
        ∧ runF.status = ExecutionStatus.failed ∧ runF.error = some "boom"
          ∧ runF.completed_at = true ∧ exF.run = some runF := by
  refine ⟨⟨rfl, by decide, rfl, rfl⟩, ?_, ?_⟩
  · exact c4_node_error_finalization.1 Int raiseGraph 1000 999 0 "a"
      (initRun []) { name := "a", func := raiseNodeFunc } "boom"
      rfl (by decide) rfl rfl
  · exact ⟨_, _, rfl,
      c4_node_error_finalization.2 Int raiseExec [] none "boom" _ _ rfl⟩

/-- A one-node graph with a self-loop edge: a run never terminates
naturally. -/
def selfLoopGraph : Graph Int :=
  { name := "loop",
    nodes :=
      [("a", { name := "a", func := fun _ => CallResult.ok (PyRet.dict [("n", 1)]) })],
    edges := [{ from_node := "a", to_node := "a" }],
    entry_point := some "a" }

/-- An executor over selfLoopGraph. -/
def selfLoopExec : WorkflowExecutor Int := { graph := selfLoopGraph }

/-- C5. A run whose loop exits without a raised error but with
current_node still truthy has hit the iteration cap: execute raises the
cap error naming the effective cap, the run is finalized failed with that
message, and the log holds exactly effective-cap entries, one per executed
step. -/
theorem c5_cap_failure (ex : WorkflowExecutor V) (s : State V) (mi : Option Nat)
    (hval : (ex.graph.validate).1 = true) (r : LoopResult V)
    (hr : r = execLoop ex.graph (effectiveCap mi) (effectiveCap mi) 0
        ex.graph.entry_point (initRun s))
    (hraised : r.raised = none) (hcur : pyTruthyName r.current = true) :
    ex.execute s mi =
      (ExecOutcome.err (capMessage (effectiveCap mi))
        (finalizeFailed r.run (capMessage (effectiveCap mi))),
       { graph := ex.graph,
         run := some (finalizeFailed r.run (capMessage (effectiveCap mi))) })
    ∧ (finalizeFailed r.run (capMessage (effectiveCap mi))).status
        = ExecutionStatus.failed
    ∧ (finalizeFailed r.run (capMessage (effectiveCap mi))).error
        = some (capMessage (effectiveCap mi))
    ∧ (finalizeFailed r.run (capMessage (effectiveCap mi))).logs.length
        = effectiveCap mi := by
  subst hr
  have hiter := execLoop_cap_exit ex.graph (effectiveCap mi) (effectiveCap mi)
    0 ex.graph.entry_point (initRun s) (by omega) hraised hcur
  have hlogs := execLoop_logs_length ex.graph (effectiveCap mi) (effectiveCap mi)
    0 ex.graph.entry_point (initRun s) hraised
  have hinit : (initRun s).logs.length = 0 := rfl
  refine ⟨?_, rfl, rfl, ?_⟩
  · simp only [WorkflowExecutor.execute]
    rw [if_neg (by simp [hval])]
    split
    · next m heq =>
      rw [heq] at hraised
      simp at hraised
    · rw [if_pos (by omega)]
  · have hfl : (finalizeFailed (execLoop ex.graph (effectiveCap mi)
        (effectiveCap mi) 0 ex.graph.entry_point (initRun s)).run
        (capMessage (effectiveCap mi))).logs.length
        = (execLoop ex.graph (effectiveCap mi) (effectiveCap mi) 0
            ex.graph.entry_point (initRun s)).run.logs.length := rfl
    omega

/-- Witness for C5: selfLoopGraph with max_iterations 2 fails with the cap
message naming 2 and exactly 2 log entries. -/
theorem c5_cap_failure_witness :
    ((selfLoopExec.graph.validate).1 = true
      ∧ (execLoop selfLoopExec.graph (effectiveCap (some 2)) (effectiveCap (some 2))
          0 selfLoopExec.graph.entry_point (initRun ([] : State Int))).raised = none
      ∧ pyTruthyName (execLoop selfLoopExec.graph (effectiveCap (some 2))
          (effectiveCap (some 2)) 0 selfLoopExec.graph.entry_point
          (initRun ([] : State Int))).current = true)
    ∧ (selfLoopExec.execute [] (some 2) =
        (ExecOutcome.err (capMessage (effectiveCap (some 2)))
          (finalizeFailed (execLoop selfLoopExec.graph (effectiveCap (some 2))
            (effectiveCap (some 2)) 0 selfLoopExec.graph.entry_point
            (initRun ([] : State Int))).run (capMessage (effectiveCap (some 2)))),
         { graph := selfLoopExec.graph,
           run := some (finalizeFailed (execLoop selfLoopExec.graph
             (effectiveCap (some 2)) (effectiveCap (some 2)) 0
             selfLoopExec.graph.entry_point (initRun ([] : State Int))).run
             (capMessage (effectiveCap (some 2)))) })
      ∧ (finalizeFailed (execLoop selfLoopExec.graph (effectiveCap (some 2))
          (effectiveCap (some 2)) 0 selfLoopExec.graph.entry_point
          (initRun ([] : State Int))).run (capMessage (effectiveCap (some 2)))).status
          = ExecutionStatus.failed
      ∧ (finalizeFailed (execLoop selfLoopExec.graph (effectiveCap (some 2))
          (effectiveCap (some 2)) 0 selfLoopExec.graph.entry_point
          (initRun ([] : State Int))).run (capMessage (effectiveCap (some 2)))).error
          = some (capMessage (effectiveCap (some 2)))
      ∧ (finalizeFailed (execLoop selfLoopExec.graph (effectiveCap (some 2))
          (effectiveCap (some 2)) 0 selfLoopExec.graph.entry_point
          (initRun ([] : State Int))).run
          (capMessage (effectiveCap (some 2)))).logs.length
          = effectiveCap (some 2)) :=
  ⟨⟨rfl, rfl, rfl⟩, c5_cap_failure selfLoopExec [] (some 2) rfl _ rfl rfl rfl⟩

/-- An executor over the default empty graph, which fails validation. -/
def invalidExec : WorkflowExecutor Int := { graph := {} }

/-- C6. When the graph fails validation, execute raises the InvalidGraph
error carrying the validation message before creating any run: the
executor (in particular its current-run reference) is unchanged, no node
executes and no log is written. -/
theorem c6_invalid_graph (ex : WorkflowExecutor V) (s : State V)
    (mi : Option Nat) (h : (ex.graph.validate).1 = false) :
    ex.execute s mi =
      (ExecOutcome.invalid ("Invalid graph: " ++ (ex.graph.validate).2), ex) := by
  simp only [WorkflowExecutor.execute]
  rw [if_pos h]

/-- Witness for C6 on the empty graph. -/
theorem c6_invalid_graph_witness :
    ((invalidExec.graph.validate).1 = false)
    ∧ invalidExec.execute [] none =
        (ExecOutcome.invalid ("Invalid graph: " ++ (invalidExec.graph.validate).2),
         invalidExec) :=
  ⟨rfl, c6_invalid_graph invalidExec [] none rfl⟩

/-- C7. For every graph and every name already present anywhere in its
node map, add_node raises the duplicate-node error and returns the graph
exactly as it was: node map, edge list and entry point are all as before
the call, and in particular the lookup of that name, hence the stored
node with its first-registered function, is unchanged. -/
theorem c7_duplicate_node (g : Graph V) (n : String)
    (f2 : State V → CallResult V) (d2 : String)
    (hdup : g.nodes.any (fun p => p.1 == n) = true) :
    g.add_node n f2 d2 = (some ("Node " ++ n ++ " already exists"), g)
    ∧ findNode (g.add_node n f2 d2).2 n = findNode g n := by
  have h1 : g.add_node n f2 d2 =
      (some ("Node " ++ n ++ " already exists"), g) := by
    simp [Graph.add_node, hdup]
  exact ⟨h1, by rw [h1]⟩

/-- A graph holding nodes a then b, built through add_node, so that the
duplicate name a is present in the node map without being the most
recently added node. -/
def twoNodeGraph : Graph Int :=
  ((Graph.add_node { } "a" demoNodeFunc "first").2.add_node "b" raiseNodeFunc
    "other").2

/-- Witness for C7 on twoNodeGraph: re-adding a, which is present in the
node map but not last-added, is rejected, the whole graph is returned
unchanged, and the stored node for a keeps the first-registered function
and description. -/
theorem c7_duplicate_node_witness :
    (twoNodeGraph.nodes.any (fun p => p.1 == "a") = true)
    ∧ twoNodeGraph.add_node "a" raiseNodeFunc "second" =
        (some ("Node " ++ "a" ++ " already exists"), twoNodeGraph)
    ∧ findNode (twoNodeGraph.add_node "a" raiseNodeFunc "second").2 "a"
        = findNode twoNodeGraph "a"
    ∧ findNode twoNodeGraph "a"
        = some { name := "a", func := demoNodeFunc, description := "first" } := by
  have h := c7_duplicate_node twoNodeGraph "a" raiseNodeFunc "second" rfl
  exact ⟨rfl, h.1, h.2, rfl⟩

/-- C1 (code behavior at the failing input of the claim). On demoGraph,
one node and no edges, with max_iterations 1: the loop exits naturally
(current_node became None, nothing was raised, after exactly 1 iteration),
yet execute raises the iteration-limit error and finalizes the run as
failed, because the post-loop check tests only iteration against the cap
and not whether current_node was still non-null; the same run with the
default cap completes. -/
theorem c1_natural_termination_at_cap_fails :
    (execLoop demoGraph 1 1 0 (some "a") (initRun ([] : State Int))).current = none
    ∧ (execLoop demoGraph 1 1 0 (some "a") (initRun ([] : State Int))).raised = none
    ∧ (execLoop demoGraph 1 1 0 (some "a") (initRun ([] : State Int))).iteration = 1
    ∧ (demoExecutor.execute [] (some 1)).1.errMsg = some (capMessage 1)
    ∧ (demoExecutor.execute [] (some 1)).1.statusOf = some ExecutionStatus.failed
    ∧ (demoExecutor.execute [] none).1.statusOf = some ExecutionStatus.completed := by
  decide

/-- C9. Passing max_iterations 0 behaves exactly like passing no cap at
all: the falsy-argument default replaces 0 by MAX_ITERATIONS, which is
1000, so a caller cannot request a zero-step run, and on a valid graph a
node still executes. -/
theorem c9_zero_cap_replaced_by_default :
    (∀ (V : Type) (ex : WorkflowExecutor V) (s : State V),
      ex.execute s (some 0) = ex.execute s none)
    ∧ effectiveCap (some 0) = MAX_ITERATIONS
    ∧ MAX_ITERATIONS = 1000
    ∧ (∃ run, (demoExecutor.execute [] (some 0)).1 = ExecOutcome.ok run
        ∧ run.visited_nodes = ["a"]) := by
  exact ⟨fun V ex s => rfl, rfl, rfl, ⟨_, rfl, rfl⟩⟩

/-! Claim C10 is about graphs reachable through the public mutating
operations, modelled as a sequence of operations applied to an empty
Graph(). -/

/-- One public mutating operation on a Graph. -/
inductive GraphOp (V : Type) where
  | addNode (name : String) (func : State V → CallResult V) (description : String)
  | addEdge (from_node to_node : String) (condition : Option (State V → Bool))
      (description : String)
  | setEntry (name : String)

/-- Apply one public operation to a graph; when the operation raises, the
graph object is left unchanged, exactly as in the source. -/
def applyOp (g : Graph V) : GraphOp V → Graph V
  | GraphOp.addNode n f d => (g.add_node n f d).2
  | GraphOp.addEdge a b c d => (g.add_edge a b c d).2
  | GraphOp.setEntry n => (g.set_entry_point n).2

/-- A graph built from an empty Graph() by a sequence of public
operations. -/
def buildGraph (ops : List (GraphOp V)) : Graph V :=
  ops.foldl applyOp { }

/-- The entry-point invariant of C10: the entry point is set exactly when
the node map is non-empty, and it always names an existing node. -/
def entryInvB (g : Graph V) : Bool :=
  match g.entry_point with
  | none => g.nodes.isEmpty
  | some ep => g.nodes.any (fun p => p.1 == ep)

/-- entryInvB only reads the entry point and the node map. -/
theorem entryInvB_congr (g1 g2 : Graph V) (he : g1.entry_point = g2.entry_point)
    (hn : g1.nodes = g2.nodes) : entryInvB g1 = entryInvB g2 := by
  rw [entryInvB, entryInvB, he, hn]

theorem entryInvB_none (g : Graph V) (h : g.entry_point = none) :
    entryInvB g = g.nodes.isEmpty := by
  simp only [entryInvB, h]

theorem entryInvB_some (g : Graph V) (ep : String) (h : g.entry_point = some ep) :
    entryInvB g = g.nodes.any (fun p => p.1 == ep) := by
  simp only [entryInvB, h]

theorem entryInvB_applyOp (g : Graph V) (op : GraphOp V)
    (h : entryInvB g = true) : entryInvB (applyOp g op) = true := by
  cases op with
  | addNode n f d =>
    by_cases hdup : g.nodes.any (fun p => p.1 == n)
    · simpa [applyOp, Graph.add_node, hdup] using h
    · have hdup2 : g.nodes.any (fun p => p.1 == n) = false := by
        cases hb : g.nodes.any (fun p => p.1 == n) with
        | false => rfl
        | true => exact absurd hb hdup
      cases hep : g.entry_point with
      | none =>
        have hres : applyOp g (GraphOp.addNode n f d) =
            { g with
              nodes := g.nodes ++
                [(n, { name := n, func := f, description := d })],
              entry_point := some n } := by
          simp [applyOp, Graph.add_node, hdup2, hep]
        rw [hres, entryInvB_some _ n rfl]
        simp [List.any_append]
      | some e =>
        rw [entryInvB_some g e hep] at h
        have hres : applyOp g (GraphOp.addNode n f d) =
            { g with
              nodes := g.nodes ++
                [(n, { name := n, func := f, description := d })],
              entry_point := some e } := by
          simp [applyOp, Graph.add_node, hdup2, hep]
        rw [hres, entryInvB_some _ e rfl]
        simp only [List.any_append, h, Bool.true_or]
  | addEdge a b c d =>
    rw [← h]
    apply entryInvB_congr
    · simp only [applyOp, Graph.add_edge]
      split
      · rfl
      · split
        · rfl
        · rfl
    · simp only [applyOp, Graph.add_edge]
      split
      · rfl
      · split
        · rfl
        · rfl
  | setEntry n =>
    by_cases hn : g.nodes.any (fun p => p.1 == n)
    · simp [applyOp, Graph.set_entry_point, hn, entryInvB]
    · have hn2 : g.nodes.any (fun p => p.1 == n) = false := by
        cases hb : g.nodes.any (fun p => p.1 == n) with
        | false => rfl
        | true => exact absurd hb hn
      simpa [applyOp, Graph.set_entry_point, hn2] using h

theorem entryInvB_buildGraph (ops : List (GraphOp V)) :
    entryInvB (buildGraph ops) = true := by
  have hgen : ∀ (g : Graph V), entryInvB g = true →
      entryInvB (ops.foldl applyOp g) = true := by
    induction ops with
    | nil => exact fun g hg => hg
    | cons op ops ih =>
      exact fun g hg => ih (applyOp g op) (entryInvB_applyOp g op hg)
  exact hgen { } rfl

theorem validate_of_entryInvB (g : Graph V) (h : entryInvB g = true) :
    (g.validate = (true, "") ↔ g.nodes.isEmpty = false)
    ∧ (g.validate = (true, "") ∨ g.validate = (false, "Graph has no nodes")) := by
  by_cases hne : g.nodes.isEmpty
  · have hv : g.validate = (false, "Graph has no nodes") := by
      simp [Graph.validate, hne]
    rw [hv, hne]
    refine ⟨⟨fun hx => absurd hx (by simp), fun hx => absurd hx (by simp)⟩,
      Or.inr rfl⟩
  · have hne2 : g.nodes.isEmpty = false := by
      cases hb : g.nodes.isEmpty with
      | false => rfl
      | true => exact absurd hb hne
    cases hep : g.entry_point with
    | none =>
      rw [entryInvB_none g hep] at h
      rw [h] at hne2
      cases hne2
    | some ep =>
      rw [entryInvB_some g ep hep] at h
      have hv : g.validate = (true, "") := by
        simp [Graph.validate, hne2, hep, h]
      rw [hv, hne2]
      exact ⟨⟨fun _ => rfl, fun _ => rfl⟩, Or.inl rfl⟩

/-- C10. Every graph built through the public operations satisfies the
entry-point invariant: the entry point is non-null whenever the node map
is non-empty and always names an existing node; consequently validate
returns (true, empty message) exactly when the graph has at least one
node, and the no-entry-point and missing-entry-point failure branches of
validate are unreachable for such graphs. -/
theorem c10_builder_invariant (ops : List (GraphOp V)) :
    entryInvB (buildGraph ops) = true
    ∧ ((buildGraph ops).validate = (true, "")
        ↔ (buildGraph ops).nodes.isEmpty = false)
    ∧ ((buildGraph ops).validate = (true, "")
        ∨ (buildGraph ops).validate = (false, "Graph has no nodes")) := by
  have h := entryInvB_buildGraph ops
  have h2 := validate_of_entryInvB (buildGraph ops) h
  exact ⟨h, h2.1, h2.2⟩

/-- A concrete build sequence: a node, a self-edge, an explicit entry. -/
def builderOps : List (GraphOp Int) :=
  [GraphOp.addNode "a" demoNodeFunc "",
   GraphOp.addEdge "a" "a" none "",
   GraphOp.setEntry "a"]

/-- Witness for C10 on builderOps. -/
theorem c10_builder_invariant_witness :
    ((buildGraph builderOps).nodes.isEmpty = false)
    ∧ (buildGraph builderOps).validate = (true, "")
    ∧ entryInvB (buildGraph builderOps) = true := by
  have h := c10_builder_invariant builderOps
  exact ⟨rfl, h.2.1.mpr rfl, h.1⟩

/-! Claim C8 concerns sharing between the live run state and the logged
state_snapshot under in-place mutation of nested objects, which the pure
state model above cannot express; the snapshot operation
self.run.state.copy() is therefore modelled separately over
heap-allocated Python values. -/

/-- A Python value stored in a dict slot: a primitive, or a reference to a
heap-allocated nested dict object. -/
inductive PyVal where
  | intv (n : Int)
  | ref (a : Nat)
  deriving DecidableEq

/-- A top-level dict: keys bound to values, references included. -/
abbrev PyDict := List (String × PyVal)

/-- The heap of nested dict objects, keyed by address. -/
abbrev PyHeap := List (Nat × PyDict)

def heapGet : PyHeap → Nat → Option PyDict
  | [], _ => none
  | p :: t, a => if p.1 == a then some p.2 else heapGet t a

/-- In-place mutation of the nested dict object at address a, as done by
a node that assigns into a sub-dict of the state it receives. -/
def heapSet : PyHeap → Nat → PyDict → PyHeap
  | [], _, _ => []
  | p :: t, a, d => if p.1 == a then (p.1, d) :: t else p :: heapSet t a d

/-- dict.copy() as used for state_snapshot at graph.py lines 269 and 283:
a new top-level table with the same keys bound to the same values; a
value that is a reference to a nested object still points to the same
heap object, and no nested object is copied. -/
def shallowCopy (d : PyDict) : PyDict :=
  d.map (fun p => (p.1, p.2))

/-- What a dict looks like to an observer, one level deep: primitives as
themselves, references replaced by the content of the referenced heap
object. -/
inductive JVal where
  | intv (n : Int)
  | obj (fields : PyDict)
  | dangling
  deriving DecidableEq

def resolveVal1 (h : PyHeap) : PyVal → JVal
  | PyVal.intv n => JVal.intv n
  | PyVal.ref a =>
    match heapGet h a with
    | none => JVal.dangling
    | some d => JVal.obj d

def resolveDict1 (h : PyHeap) (d : PyDict) : List (String × JVal) :=
  d.map (fun p => (p.1, resolveVal1 h p.2))

/-- An address unused by the heap. -/
def freshAddr (h : PyHeap) : Nat :=
  (h.map (fun p => p.1)).foldl (fun m a => Nat.max m (a + 1)) 0

/-- A deep copy of one value: a referenced nested object is copied into a
fresh heap address, so the copy shares no structure with the original. -/
def deepCopyVal1 (h : PyHeap) : PyVal → PyHeap × PyVal
  | PyVal.intv n => (h, PyVal.intv n)
  | PyVal.ref a =>
    match heapGet h a with
    | none => (h, PyVal.ref a)
    | some d => (h ++ [(freshAddr h, d)], PyVal.ref (freshAddr h))

def deepCopyDict1 (h : PyHeap) (d : PyDict) : PyHeap × PyDict :=
  d.foldl (fun acc p =>
    ((deepCopyVal1 acc.1 p.2).1, acc.2 ++ [(p.1, (deepCopyVal1 acc.1 p.2).2)]))
    (h, [])

/-- The live run state of the failing scenario: key a maps to a nested
dict at address 0 whose content is x: 0. -/
def liveState0 : PyDict := [("a", PyVal.ref 0)]

def heap0 : PyHeap := [(0, [("x", PyVal.intv 0)])]

/-- The heap after a later step mutates the nested dict in place, setting
x to 1. -/
def heap1 : PyHeap := heapSet heap0 0 [("x", PyVal.intv 1)]

/-- C8 (code behavior at the failing input of the claim). The snapshot
taken with dict.copy() keeps the reference to the nested dict, so after a
later step mutates that nested dict in place the earlier snapshot reads
back the mutated content, different from what it read at logging time; a
true deep copy of the same state is unaffected by the same mutation. -/
theorem c8_snapshot_shallow_copy_shared :
    shallowCopy liveState0 = liveState0
    ∧ resolveDict1 heap0 (shallowCopy liveState0)
        = [("a", JVal.obj [("x", PyVal.intv 0)])]
    ∧ resolveDict1 heap1 (shallowCopy liveState0)
        = [("a", JVal.obj [("x", PyVal.intv 1)])]
    ∧ resolveDict1 heap1 (shallowCopy liveState0)
        ≠ resolveDict1 heap0 (shallowCopy liveState0)
    ∧ resolveDict1
        (heapSet (deepCopyDict1 heap0 liveState0).1 0 [("x", PyVal.intv 1)])
        (deepCopyDict1 heap0 liveState0).2
        = resolveDict1 heap0 liveState0 := by
  decide

end DQ
